import Mathlib

/-!
Verification of the PromptFusion Canvas workflow queue engine.

The definitions below are a shallow embedding of the TypeScript source:
`src/App.tsx` (work-item store, queue engine, batch controller commands),
`src/services/utils.ts` (environment lookup) and the Gemini service module
(`describeImage`, `generateVariation`, `fetchWithTimeout`).  Remote I/O is
modelled by explicit outcome parameters: the vision stream is a value of
`StreamOutcome`, the generation HTTP response is a `FetchResponse` together
with the elapsed time of the request, and the queue engine receives the two
stage outcomes through a `Stages` oracle keyed by item id.  Log record ids
and timestamps, console output and the 500 ms inter-item pacing delay have
no bearing on any property below and are not represented.
-/

namespace PromptFusion

/-- Severity of a system log record (the `type` field of `SystemLog`). -/
inductive LogType
  | info
  | success
  | warning
  | error
deriving DecidableEq

/-- The per-item workflow status (`WorkflowStatus` in the source). -/
inductive WorkflowStatus
  | PENDING
  | ANALYZING
  | GENERATING
  | COMPLETED
  | ERROR
deriving DecidableEq

/-- An input file; the engine only ever reads its name. -/
structure InputFile where
  name : String
deriving DecidableEq

/-- One unit of work (`WorkItem` in the source).  Optional fields are `none`
exactly when the TypeScript field is `undefined`. -/
structure WorkItem where
  id : String
  file : InputFile
  previewUrl : String
  status : WorkflowStatus
  originalPrompt : Option String := none
  generatedImageUrl : Option String := none
  error : Option String := none
  progressLog : List String := []
deriving DecidableEq

/-- A system log record; the generated id and the timestamp are omitted, the
optional `details` payload is never read by the application. -/
structure SystemLog where
  type : LogType
  message : String
deriving DecidableEq

/-- The mutable application state the queue engine and the user commands
operate on: the item store, the event log and the processing flag
(`isProcessingRef`/`isProcessing`, which the source keeps in sync). -/
structure EngineState where
  items : List WorkItem
  logs : List SystemLog
  isProcessing : Bool
deriving DecidableEq

/-- Configuration of one stage (`ServiceConfig` in the source).  Absent or
empty TypeScript strings are both modelled as `""`, matching their shared
falsiness. -/
structure ServiceConfig where
  apiKey : String := ""
  baseUrl : String := ""
  model : String := ""
  systemInstruction : String := ""
  aspectRatio : String := ""
deriving DecidableEq

/-- The host environment visible to `getEnv`: whether `import.meta.env`
exists together with its lookup table, and likewise for `process.env`.
A lookup returns `""` for variables that are absent (absent and empty are
equally falsy in the source conditions). -/
structure EnvState where
  viteAvailable : Bool
  vite : String → String
  processAvailable : Bool
  procEnv : String → String

/-- `getEnv` from `src/services/utils.ts`: prefer a truthy
`import.meta.env.VITE_<key>`, then a truthy `process.env[<key>]`, else `""`. -/
def getEnv (e : EnvState) (key : String) : String :=
  if e.viteAvailable = true ∧ e.vite ("VITE_" ++ key) ≠ "" then
    e.vite ("VITE_" ++ key)
  else if e.processAvailable = true ∧ e.procEnv key ≠ "" then
    e.procEnv key
  else ""

/-- `cleanBaseUrl` from the Gemini service: drop one trailing slash. -/
def cleanBaseUrl (url : String) : String :=
  if url = "" then ""
  else if url.endsWith "/" then url.dropRight 1
  else url

/-- The HTTP response the generation endpoint produced, reduced to the fields
the source inspects (`ok`, `status`, `statusText`, `data[0].url`,
`data[0].b64_json`). -/
structure FetchResponse where
  ok : Bool
  status : Nat
  statusText : String
  dataUrl : Option String := none
  dataB64 : Option String := none
deriving DecidableEq

/-- `fetchWithTimeout` from the Gemini service.  The fetch is modelled by the
elapsed time the request would need together with its eventual response: the
`AbortController` fires once `timeout` milliseconds have passed, so a request
that is still pending at that point raises an abort error instead of
returning the response.  The default timeout in the source is `120000`. -/
def fetchWithTimeout (elapsedMs : Nat) (response : FetchResponse)
    (timeout : Nat := 120000) : Except String FetchResponse :=
  if timeout ≤ elapsedMs then Except.error "AbortError"
  else Except.ok response

/-- Substring test used to model `String.prototype.includes`. -/
def containsSubstr (s pat : String) : Bool :=
  2 ≤ (s.splitOn pat).length

/-- The error-message decoration of the vision call: append the proxy hint for
the common 400 / invalid-key failure, then the `Analysis failed:` prefix. -/
def describeImageErrMsg (cfg : ServiceConfig) (msg : String) : String :=
  let msg :=
    if containsSubstr msg "400" || containsSubstr msg "API_KEY_INVALID" then
      if cfg.baseUrl.trim ≠ "" then
        msg ++ " \n\n[HINT] Key rejected by your custom endpoint. Check if the key is correct."
      else
        msg ++ " \n\n[HINT] You are hitting Google Official. If you are using a proxy Key (like Apicore), you MUST set the Base URL in Settings -> Step 1."
    else msg
  "Analysis failed: " ++ msg

/-- Outcome of the vision streaming call: either the SDK stream fails with a
message, or it completes after yielding a list of text chunks (the source
ignores chunks without text; they contribute `""` to the concatenation). -/
inductive StreamOutcome
  | failed (msg : String)
  | chunks (texts : List String)
deriving DecidableEq

/-- `describeImage` from the Gemini service: resolve the credential from the
stage config with fallback to the environment `API_KEY`, fail when both are
empty, otherwise accumulate the stream into `fullText` and return it, with
the fixed placeholder when the stream yielded no text. -/
def describeImage (cfg : ServiceConfig) (env : EnvState)
    (stream : StreamOutcome) : Except String String :=
  let apiKey := if cfg.apiKey ≠ "" then cfg.apiKey else getEnv env "API_KEY"
  if apiKey = "" then
    Except.error "API Key for Analysis step is missing. Please check Settings."
  else
    match stream with
    | StreamOutcome.failed msg =>
        Except.error (describeImageErrMsg cfg (if msg = "" then "Unknown error" else msg))
    | StreamOutcome.chunks texts =>
        let fullText := String.join texts
        Except.ok (if fullText = "" then "No description generated." else fullText)

/-- `generateVariation` from the Gemini service: resolve the credential the
same way, post to the generation endpoint through `fetchWithTimeout` with its
default timeout, surface non-OK statuses as errors, and extract the image
from `data[0].url` or `data[0].b64_json`; any other shape is an invalid
response structure.  The body text appended to HTTP error details is not
modelled beyond the `API Error <status>: <statusText>` prefix. -/
def generateVariation (cfg : ServiceConfig) (env : EnvState)
    (elapsedMs : Nat) (response : FetchResponse) : Except String String :=
  let apiKey := if cfg.apiKey ≠ "" then cfg.apiKey else getEnv env "API_KEY"
  if apiKey = "" then
    Except.error "API Key for Generation step is missing."
  else
    match fetchWithTimeout elapsedMs response with
    | Except.error e => Except.error e
    | Except.ok resp =>
        if resp.ok = false then
          Except.error ("API Error " ++ toString resp.status ++ ": " ++ resp.statusText)
        else
          match resp.dataUrl with
          | some u => Except.ok u
          | none =>
              match resp.dataB64 with
              | some b => Except.ok ("data:image/png;base64," ++ b)
              | none => Except.error "Invalid Response Structure"

/-- The analysis stage call as a function of the elapsed time of the remote
request: `describeImage` is not routed through `fetchWithTimeout` (the SDK
stream is awaited directly), so its outcome does not depend on elapsed time. -/
def analysisCallAt (cfg : ServiceConfig) (env : EnvState)
    (stream : StreamOutcome) (_elapsedMs : Nat) : Except String String :=
  describeImage cfg env stream

/-- The generation stage call as a function of the elapsed time of the remote
request. -/
def generationCallAt (cfg : ServiceConfig) (env : EnvState)
    (response : FetchResponse) (elapsedMs : Nat) : Except String String :=
  generateVariation cfg env elapsedMs response

/-- A stage call is bounded by a timeout when some cutoff exists past which a
still-pending request is surfaced as a stage failure instead of suspending. -/
def BoundedByTimeout (call : Nat → Except String String) : Prop :=
  ∃ T : Nat, ∀ t : Nat, T ≤ t → ∃ e : String, call t = Except.error e

/-- Append a record to the event log (`addLog` in `App.tsx`; the generated id
and timestamp are omitted). -/
def addLog (t : LogType) (m : String) (s : EngineState) : EngineState :=
  { s with logs := s.logs ++ [⟨t, m⟩] }

/-- The inputs of one `handleFilesSelected` call: the selected file together
with the id `generateId` produced and the object URL `URL.createObjectURL`
produced for it. -/
structure NewFileInput where
  id : String
  file : InputFile
  previewUrl : String
deriving DecidableEq

/-- The fresh `WorkItem` `handleFilesSelected` builds for one selected file. -/
def mkWorkItem (nf : NewFileInput) : WorkItem :=
  { id := nf.id
    file := nf.file
    previewUrl := nf.previewUrl
    status := WorkflowStatus.PENDING
    progressLog := ["Queued for processing..."] }

/-- `handleFilesSelected` from `App.tsx`: append the new `Pending` items to
the store and log the info record. -/
def handleFilesSelected (files : List NewFileInput) (s : EngineState) : EngineState :=
  addLog LogType.info ("Added " ++ toString files.length ++ " files to queue.")
    { s with items := s.items ++ files.map mkWorkItem }

/-- `updateItem` from `App.tsx`, specialized to an explicit transformation:
the source merges a literal partial record into the matching item and leaves
every other item in place; each call site below passes its literal update as
a function on the matched item. -/
def updateItemWith (f : WorkItem → WorkItem) (id : String)
    (items : List WorkItem) : List WorkItem :=
  items.map fun it => if it.id = id then f it else it

/-- `handleRemoveItem` from `App.tsx`: filter the item out of the store,
whatever its status; nothing is logged. -/
def handleRemoveItem (id : String) (s : EngineState) : EngineState :=
  { s with items := s.items.filter fun it => decide (it.id ≠ id) }

/-- The literal partial record `handleRetryItem` merges into the item: reset
to `Pending`, clear the error, the result image and the prompt, replace the
progress log. -/
def retryReset (it : WorkItem) : WorkItem :=
  { it with
    status := WorkflowStatus.PENDING
    error := none
    generatedImageUrl := none
    originalPrompt := none
    progressLog := ["Retrying..."] }

/-- `handleRetryItem` from `App.tsx`: unconditionally reset the matching item
to `Pending`, clearing its error, result image, prompt and progress log, and
log the info record. -/
def handleRetryItem (id : String) (s : EngineState) : EngineState :=
  addLog LogType.info ("Retrying item " ++ id)
    { s with items := updateItemWith retryReset id s.items }

/-- `clearCompleted` from `App.tsx`: a silent no-op while processing;
otherwise drop every `Completed` or `Error` item and log the info record. -/
def clearCompleted (s : EngineState) : EngineState :=
  if s.isProcessing then s
  else
    addLog LogType.info "Cleared completed/error items."
      { s with
        items := s.items.filter fun it =>
          decide (it.status ≠ WorkflowStatus.COMPLETED ∧ it.status ≠ WorkflowStatus.ERROR) }

/-- `resetAll` from `App.tsx`: a silent no-op while processing; otherwise
empty the store and log the warning record. -/
def resetAll (s : EngineState) : EngineState :=
  if s.isProcessing then s
  else addLog LogType.warning "All items reset." { s with items := [] }

/-- `stopProcessing` from `App.tsx`: clear the processing flag (the
cooperative cancellation signal the loop reads between items) and log the
warning record. -/
def stopProcessing (s : EngineState) : EngineState :=
  addLog LogType.warning "Processing stopped by user." { s with isProcessing := false }

/-- The two stage clients as the engine sees them, keyed by the id of the
item being processed, plus the aspect-ratio label interpolated into the
step-2 log message.  `analyze` is the awaited result of `describeImage` and
`generate` the awaited result of `generateVariation`; the thrown message is
the `error` payload. -/
structure Stages where
  analyze : String → Except String String
  generate : String → Except String String
  ratioLabel : String

/-- The scan for the next item, `findIndex(status === PENDING)` followed by
the lookup at that index: the first `Pending` item in store order. -/
def findPending (items : List WorkItem) : Option WorkItem :=
  items.find? fun it => decide (it.status = WorkflowStatus.PENDING)

/-- The message the catch block stores: `error.message`, with the fixed
fallback when it is falsy. -/
def displayedErrMsg (m : String) : String :=
  if m = "" then "Unknown error occurred" else m

/-- One iteration body of the driver loop in `processQueue`: mark the current
item `Analyzing` and seed its prompt, run the analysis stage, finalize the
prompt, mark `Generating`, run the generation stage and complete the item;
any stage error lands in the catch block which logs the error record and
marks the item `Error`.  The streaming callback writes intermediate prompt
values that the finalizing write overwrites; only the committed final value
is represented. -/
def processItem (stages : Stages) (cur : WorkItem) (s : EngineState) : EngineState :=
  let s := addLog LogType.info
    ("Processing Item: " ++ cur.file.name ++ " (" ++ cur.id ++ ")") s
  let s := { s with items := updateItemWith (fun it =>
    { it with status := WorkflowStatus.ANALYZING, originalPrompt := some "" }) cur.id s.items }
  let s := addLog LogType.info "[Step 1] Sending to Vision API..." s
  match stages.analyze cur.id with
  | Except.ok desc =>
    let s := { s with items := updateItemWith (fun it =>
      { it with originalPrompt := some desc }) cur.id s.items }
    let s := addLog LogType.success "[Step 1] Analysis complete." s
    let s := { s with items := updateItemWith (fun it =>
      { it with status := WorkflowStatus.GENERATING }) cur.id s.items }
    let s := addLog LogType.info
      ("[Step 2] Sending to Image Gen API (Ratio: " ++ stages.ratioLabel ++ ")...") s
    match stages.generate cur.id with
    | Except.ok img =>
      let s := { s with items := updateItemWith (fun it =>
        { it with status := WorkflowStatus.COMPLETED, generatedImageUrl := some img }) cur.id s.items }
      addLog LogType.success "[Step 2] Image generation successful." s
    | Except.error m =>
      let msg := displayedErrMsg m
      let s := addLog LogType.error
        ("Failed processing " ++ cur.file.name ++ ": " ++ msg) s
      { s with items := updateItemWith (fun it =>
        { it with status := WorkflowStatus.ERROR, error := some msg }) cur.id s.items }
  | Except.error m =>
    let msg := displayedErrMsg m
    let s := addLog LogType.error
      ("Failed processing " ++ cur.file.name ++ ": " ++ msg) s
    { s with items := updateItemWith (fun it =>
      { it with status := WorkflowStatus.ERROR, error := some msg }) cur.id s.items }

/-- The driver loop of `processQueue`.  `stopDuring k` records whether the
user clicks STOP while iteration `k` is in flight: the flag write is only
observed at the loop head, so the in-flight item still runs to a terminal
status and the loop exits at the next head check.  `fuel` bounds the number
of iterations; since each iteration drives one `Pending` item to a terminal
status, `items.length + 1` fuel is never exhausted before the loop condition
fails. -/
def runLoop (stages : Stages) (stopDuring : Nat → Bool) :
    Nat → Nat → EngineState → EngineState
  | 0, _, s => s
  | fuel + 1, k, s =>
    match findPending s.items with
    | none => s
    | some cur =>
      if s.isProcessing then
        let s1 := processItem stages cur s
        let s2 := if stopDuring k then stopProcessing s1 else s1
        runLoop stages stopDuring fuel (k + 1) s2
      else s

/-- `processQueue` from `App.tsx`: a no-op when already running (idempotent
start), otherwise raise the processing flag, log the start record, run the
driver loop, and in the `finally` block clear the flag and log the final
record. -/
def processQueue (stages : Stages) (stopDuring : Nat → Bool)
    (s : EngineState) : EngineState :=
  if s.isProcessing then s
  else
    let s := addLog LogType.info "Queue processing started." { s with isProcessing := true }
    let s := runLoop stages stopDuring (s.items.length + 1) 0 s
    addLog LogType.info "Queue processing finished or stopped." { s with isProcessing := false }

/-! ### Helper lemmas -/

/-- Two strings differ when the concrete prefix of the first disagrees with
the corresponding prefix of the second. -/
theorem append_ne_of_take_ne (a t : String)
    (hne : a.data ≠ t.data.take a.data.length) :
    ∀ m : String, a ++ m ≠ t := by
  intro m h
  apply hne
  have hd : a.data ++ m.data = t.data := by
    have := congrArg String.data h
    rwa [String.data_append] at this
  rw [← hd, List.take_left]

/-- The credential both stage calls resolve: the config key when truthy, else
the environment `API_KEY`. -/
def resolvedApiKey (cfg : ServiceConfig) (env : EnvState) : String :=
  if cfg.apiKey ≠ "" then cfg.apiKey else getEnv env "API_KEY"

theorem resolvedApiKey_empty_iff (cfg : ServiceConfig) (env : EnvState) :
    resolvedApiKey cfg env = "" ↔ (cfg.apiKey = "" ∧ getEnv env "API_KEY" = "") := by
  unfold resolvedApiKey
  by_cases h : cfg.apiKey = "" <;> simp [h]

/-! ### C9: credential fallback -/

/-- C9: for both stage calls a missing-credential error is raised if and only
if the config `apiKey` and the environment-provided `API_KEY` are both
absent/empty; the environment `API_KEY` itself is empty exactly when neither
a truthy `VITE_API_KEY` in `import.meta.env` nor a truthy `API_KEY` in
`process.env` exists, so an environment credential is silently used whenever
the config field is empty. -/
theorem credential_fallback (cfg : ServiceConfig) (env : EnvState)
    (stream : StreamOutcome) (r : FetchResponse) (t : Nat) :
    (describeImage cfg env stream
        = Except.error "API Key for Analysis step is missing. Please check Settings."
      ↔ (cfg.apiKey = "" ∧ getEnv env "API_KEY" = ""))
    ∧ (generateVariation cfg env t r
        = Except.error "API Key for Generation step is missing."
      ↔ (cfg.apiKey = "" ∧ getEnv env "API_KEY" = ""))
    ∧ (getEnv env "API_KEY" = ""
      ↔ ((env.viteAvailable = false ∨ env.vite "VITE_API_KEY" = "")
          ∧ (env.processAvailable = false ∨ env.procEnv "API_KEY" = ""))) := by
  refine ⟨?_, ?_, ?_⟩
  · rw [← resolvedApiKey_empty_iff]
    unfold describeImage
    rw [show (if cfg.apiKey ≠ "" then cfg.apiKey else getEnv env "API_KEY")
          = resolvedApiKey cfg env from rfl]
    constructor
    · intro h
      by_contra hk
      rw [if_neg hk] at h
      cases stream with
      | failed msg =>
          simp only [Except.error.injEq] at h
          exact append_ne_of_take_ne "Analysis failed: " _ (by decide) _ h
      | chunks texts => simp at h
    · intro h
      rw [if_pos h]
  · rw [← resolvedApiKey_empty_iff]
    unfold generateVariation
    rw [show (if cfg.apiKey ≠ "" then cfg.apiKey else getEnv env "API_KEY")
          = resolvedApiKey cfg env from rfl]
    constructor
    · intro h
      by_contra hk
      rw [if_neg hk] at h
      by_cases ht : 120000 ≤ t
      · have hft : fetchWithTimeout t r = Except.error "AbortError" := by
          unfold fetchWithTimeout; rw [if_pos ht]
        simp only [hft, Except.error.injEq] at h
        exact absurd h (by decide)
      · have hft : fetchWithTimeout t r = Except.ok r := by
          unfold fetchWithTimeout; rw [if_neg ht]
        simp only [hft] at h
        by_cases hok : r.ok = false
        · rw [if_pos hok] at h
          simp only [Except.error.injEq] at h
          exact append_ne_of_take_ne "API Error " _ (by decide) _ h
        · rw [if_neg hok] at h
          cases hu : r.dataUrl with
          | some u => rw [hu] at h; simp at h
          | none =>
              rw [hu] at h
              cases hb : r.dataB64 with
              | some b => rw [hb] at h; simp at h
              | none => rw [hb] at h; simp at h
    · intro h
      rw [if_pos h]
  · unfold getEnv
    rw [show ("VITE_" ++ "API_KEY" : String) = "VITE_API_KEY" from rfl]
    by_cases hv : env.viteAvailable = true ∧ env.vite "VITE_API_KEY" ≠ ""
    · rw [if_pos hv]
      constructor
      · intro h; exact absurd h hv.2
      · intro h
        rcases h.1 with h1 | h1
        · exact absurd hv.1 (by simp [h1])
        · exact absurd h1 hv.2
    · rw [if_neg hv]
      by_cases hp : env.processAvailable = true ∧ env.procEnv "API_KEY" ≠ ""
      · rw [if_pos hp]
        constructor
        · intro h; exact absurd h hp.2
        · intro h
          rcases h.2 with h1 | h1
          · exact absurd hp.1 (by simp [h1])
          · exact absurd h1 hp.2
      · rw [if_neg hp]
        constructor
        · intro _
          constructor
          · rcases Bool.eq_false_or_eq_true env.viteAvailable with h1 | h1
            · exact Or.inr (by_contra fun h2 => hv ⟨h1, h2⟩)
            · exact Or.inl h1
          · rcases Bool.eq_false_or_eq_true env.processAvailable with h1 | h1
            · exact Or.inr (by_contra fun h2 => hp ⟨h1, h2⟩)
            · exact Or.inl h1
        · intro _; rfl

/-- Witness for C9 at a concrete input: an empty config key with a
process-environment credential is silently used, no error. -/
theorem credential_fallback_witness :
    ¬ (describeImage { apiKey := "" }
        ⟨false, fun _ => "", true, fun k => if k = "API_KEY" then "sk-env" else ""⟩
        (StreamOutcome.chunks ["a"])
      = Except.error "API Key for Analysis step is missing. Please check Settings.") := by
  have h := (credential_fallback { apiKey := "" }
    ⟨false, fun _ => "", true, fun k => if k = "API_KEY" then "sk-env" else ""⟩
    (StreamOutcome.chunks ["a"]) ⟨true, 200, "OK", some "u", none⟩ 0).1
  intro hc
  have h2 := h.mp hc
  have : getEnv ⟨false, fun _ => "", true, fun k => if k = "API_KEY" then "sk-env" else ""⟩
      "API_KEY" = "sk-env" := rfl
  rw [this] at h2
  exact absurd h2.2 (by decide)

/-! ### C10: the analysis description is never empty -/

/-- C10: whenever the analysis stage call succeeds, the returned description
is non-empty — an empty stream yields the fixed placeholder instead. -/
theorem description_nonempty (cfg : ServiceConfig) (env : EnvState)
    (stream : StreamOutcome) (r : String)
    (h : describeImage cfg env stream = Except.ok r) : r ≠ "" := by
  unfold describeImage at h
  by_cases hk : (if cfg.apiKey ≠ "" then cfg.apiKey else getEnv env "API_KEY") = ""
  · rw [if_pos hk] at h; exact absurd h (by simp)
  · rw [if_neg hk] at h
    cases stream with
    | failed msg => exact absurd h (by simp)
    | chunks texts =>
        simp only [Except.ok.injEq] at h
        by_cases he : String.join texts = ""
        · rw [← h, if_pos he]; decide
        · rw [← h, if_neg he]; exact he

/-- Witness for C10 at a concrete input: an empty stream succeeds with the
non-empty placeholder. -/
theorem description_nonempty_witness : ("No description generated." : String) ≠ "" :=
  description_nonempty { apiKey := "k" } ⟨false, fun _ => "", false, fun _ => ""⟩
    (StreamOutcome.chunks []) "No description generated." rfl

/-! ### C5: timeout bounds on the stage calls -/

/-- Counterexample to C5: the analysis stage call is not routed through
`fetchWithTimeout` (or any other timeout), so with a valid credential and a
completing stream its outcome is a success at every elapsed time — no cutoff
exists past which it is treated as a stage failure. -/
theorem analysis_call_unbounded_cex :
    ¬ BoundedByTimeout (analysisCallAt { apiKey := "k" }
        ⟨false, fun _ => "", false, fun _ => ""⟩ (StreamOutcome.chunks ["a"])) := by
  rintro ⟨T, hT⟩
  obtain ⟨e, he⟩ := hT T le_rfl
  have hok : analysisCallAt { apiKey := "k" }
      ⟨false, fun _ => "", false, fun _ => ""⟩ (StreamOutcome.chunks ["a"]) T
      = Except.ok "a" := rfl
  rw [hok] at he
  exact Except.noConfusion he

/-- C5 amended: only the generation stage call is bounded by a timeout — the
`fetchWithTimeout` default of 120000 ms (≥ 60 s) — past which the pending
request is surfaced as a stage failure; the analysis stage call is awaited
directly, so its outcome is independent of elapsed time. -/
theorem timeout_bound_generation_only (cfg : ServiceConfig) (env : EnvState)
    (r : FetchResponse) (stream : StreamOutcome) :
    (∀ t : Nat, 120000 ≤ t → ∃ e, generationCallAt cfg env r t = Except.error e)
    ∧ 60000 ≤ 120000
    ∧ (∀ t u : Nat, analysisCallAt cfg env stream t = analysisCallAt cfg env stream u) := by
  refine ⟨fun t ht => ?_, by norm_num, fun t u => rfl⟩
  unfold generationCallAt generateVariation fetchWithTimeout
  rw [if_pos ht]
  by_cases hk : (if cfg.apiKey ≠ "" then cfg.apiKey else getEnv env "API_KEY") = ""
  · rw [if_pos hk]; exact ⟨_, rfl⟩
  · rw [if_neg hk]; exact ⟨"AbortError", rfl⟩

/-- Witness for the amended C5 at a concrete input: at exactly the default
timeout, the generation call fails even though the response would be OK. -/
theorem timeout_bound_generation_only_witness :
    ∃ e, generationCallAt { apiKey := "k" } ⟨false, fun _ => "", false, fun _ => ""⟩
      ⟨true, 200, "OK", some "u", none⟩ 120000 = Except.error e :=
  (timeout_bound_generation_only { apiKey := "k" }
    ⟨false, fun _ => "", false, fun _ => ""⟩
    ⟨true, 200, "OK", some "u", none⟩ (StreamOutcome.chunks [])).1 120000 le_rfl

/-! ### Store helper lemmas -/

theorem list_map_id_of_mem {α : Type} (l : List α) (f : α → α)
    (h : ∀ x ∈ l, f x = x) : l.map f = l := by
  induction l with
  | nil => rfl
  | cons a t ih =>
      simp only [List.map_cons, h a (by simp)]
      rw [ih fun x hx => h x (by simp [hx])]

theorem updateItemWith_length (f : WorkItem → WorkItem) (id : String)
    (items : List WorkItem) : (updateItemWith f id items).length = items.length := by
  simp [updateItemWith]

theorem updateItemWith_get (f : WorkItem → WorkItem) (id : String)
    (items : List WorkItem) (i : Nat) (hi : i < items.length)
    (hi2 : i < (updateItemWith f id items).length) :
    (updateItemWith f id items).get ⟨i, hi2⟩ =
      if (items.get ⟨i, hi⟩).id = id then f (items.get ⟨i, hi⟩)
      else items.get ⟨i, hi⟩ := by
  simp [updateItemWith, List.get_eq_getElem, List.getElem_map]

/-! ### C3: retry guard -/

/-- Counterexample to C3: `handleRetryItem` has no status guard — applied to
a `Completed` item it is not a no-op: the item is reset to `Pending` and its
result image is discarded. -/
theorem retry_guard_cex :
    (handleRetryItem "a"
      { items := [{ id := "a", file := ⟨"a.png"⟩, previewUrl := "u",
                    status := WorkflowStatus.COMPLETED, generatedImageUrl := some "img" }],
        logs := [], isProcessing := false }).items
      ≠ [{ id := "a", file := ⟨"a.png"⟩, previewUrl := "u",
           status := WorkflowStatus.COMPLETED, generatedImageUrl := some "img" }]
    ∧ (handleRetryItem "a"
        { items := [{ id := "a", file := ⟨"a.png"⟩, previewUrl := "u",
                      status := WorkflowStatus.COMPLETED, generatedImageUrl := some "img" }],
          logs := [], isProcessing := false }).items.map WorkItem.status
      = [WorkflowStatus.PENDING] := by
  decide

/-- C3 amended: `retry(id)` resets the matching item to `Pending` with
`errorMessage` and `resultImage` absent whatever its previous status — in
particular this is the claimed effect on an `Error` item, but an item in any
other status is reset the same way rather than being rejected (the Error-only
restriction exists only in the UI, which renders the retry control solely
for `Error` items); items with a different id are unchanged. -/
theorem retry_resets_unconditionally (id : String) (s : EngineState) :
    ((handleRetryItem id s).items.length = s.items.length)
    ∧ (∀ (i : Nat) (hi : i < s.items.length) (hi2 : i < (handleRetryItem id s).items.length),
        ((s.items.get ⟨i, hi⟩).id ≠ id →
          (handleRetryItem id s).items.get ⟨i, hi2⟩ = s.items.get ⟨i, hi⟩)
        ∧ ((s.items.get ⟨i, hi⟩).id = id →
          (handleRetryItem id s).items.get ⟨i, hi2⟩ =
            { s.items.get ⟨i, hi⟩ with
              status := WorkflowStatus.PENDING
              error := none
              generatedImageUrl := none
              originalPrompt := none
              progressLog := ["Retrying..."] })) := by
  constructor
  · simp [handleRetryItem, addLog, updateItemWith_length]
  · intro i hi hi2
    have hg := updateItemWith_get retryReset id s.items i hi
    constructor
    · intro hne
      have h2 := hg (by simpa [handleRetryItem, addLog] using hi2)
      rw [if_neg hne] at h2
      simpa [handleRetryItem, addLog] using h2
    · intro heq
      have h2 := hg (by simpa [handleRetryItem, addLog] using hi2)
      rw [if_pos heq] at h2
      simpa [handleRetryItem, addLog, retryReset] using h2

/-- Witness for the amended C3 at a concrete input: retrying an `Error` item
yields `Pending` with both optional result fields absent. -/
theorem retry_resets_unconditionally_witness :
    (handleRetryItem "a"
      { items := [{ id := "a", file := ⟨"a.png"⟩, previewUrl := "u",
                    status := WorkflowStatus.ERROR, error := some "boom" }],
        logs := [], isProcessing := false }).items.get ⟨0, by decide⟩
    = { id := "a", file := ⟨"a.png"⟩, previewUrl := "u",
        status := WorkflowStatus.PENDING, originalPrompt := none,
        generatedImageUrl := none, error := none,
        progressLog := ["Retrying..."] } := by
  have h := (retry_resets_unconditionally "a"
    { items := [{ id := "a", file := ⟨"a.png"⟩, previewUrl := "u",
                  status := WorkflowStatus.ERROR, error := some "boom" }],
      logs := [], isProcessing := false }).2 0 (by decide) (by decide)
  exact h.2 rfl

/-! ### C4: removal guard -/

/-- Counterexample to C4: `handleRemoveItem` has no status guard — removing
an item that is currently `Analyzing` succeeds and changes the store, instead
of being rejected or deferred. -/
theorem remove_active_cex :
    (handleRemoveItem "a"
      { items := [{ id := "a", file := ⟨"a.png"⟩, previewUrl := "u",
                    status := WorkflowStatus.ANALYZING, originalPrompt := some "" }],
        logs := [], isProcessing := true }).items = []
    ∧ (handleRemoveItem "a"
        { items := [{ id := "a", file := ⟨"a.png"⟩, previewUrl := "u",
                      status := WorkflowStatus.ANALYZING, originalPrompt := some "" }],
          logs := [], isProcessing := true }).items
      ≠ [{ id := "a", file := ⟨"a.png"⟩, previewUrl := "u",
           status := WorkflowStatus.ANALYZING, originalPrompt := some "" }] := by
  decide

/-- C4 amended: `remove(id)` removes the matching item whatever its status —
including `Analyzing`/`Generating` — keeps every other item, logs nothing,
and afterwards any engine update addressed to the removed id is a no-op. -/
theorem remove_unconditional (id : String) (s : EngineState) :
    (∀ it : WorkItem, it ∈ (handleRemoveItem id s).items ↔ (it ∈ s.items ∧ it.id ≠ id))
    ∧ (∀ f : WorkItem → WorkItem,
        updateItemWith f id (handleRemoveItem id s).items = (handleRemoveItem id s).items)
    ∧ (handleRemoveItem id s).logs = s.logs := by
  refine ⟨?_, ?_, rfl⟩
  · intro it
    simp [handleRemoveItem, List.mem_filter]
  · intro f
    unfold updateItemWith
    apply list_map_id_of_mem
    intro it hit
    have : it.id ≠ id := by
      simp only [handleRemoveItem, List.mem_filter, decide_eq_true_eq] at hit
      exact hit.2
    rw [if_neg this]

/-! ### C7: clearFinished / resetAll idle-only guard -/

/-- Counterexample to C7: while the engine is running, `clearCompleted` is
rejected, but silently — the state (including the log) is returned unchanged,
no warning record is appended. -/
theorem clear_while_running_silent_cex :
    clearCompleted
      { items := [{ id := "a", file := ⟨"a.png"⟩, previewUrl := "u",
                    status := WorkflowStatus.COMPLETED, generatedImageUrl := some "img" }],
        logs := [], isProcessing := true }
    = { items := [{ id := "a", file := ⟨"a.png"⟩, previewUrl := "u",
                    status := WorkflowStatus.COMPLETED, generatedImageUrl := some "img" }],
        logs := [], isProcessing := true }
    ∧ (clearCompleted
        { items := [{ id := "a", file := ⟨"a.png"⟩, previewUrl := "u",
                      status := WorkflowStatus.COMPLETED, generatedImageUrl := some "img" }],
          logs := [], isProcessing := true }).logs.filter
        (fun l => decide (l.type = LogType.warning)) = [] := by
  decide

/-- C7 amended: while the engine is running, `clearCompleted()` and
`resetAll()` are rejected as silent no-ops — the store and the log are both
left unchanged, with no warning record; while idle, `clearCompleted()` keeps
exactly the items that are neither `Completed` nor `Error`, leaving the
`Pending` items untouched and in order. -/
theorem clear_finished_guard (s : EngineState) :
    (s.isProcessing = true → clearCompleted s = s ∧ resetAll s = s)
    ∧ (s.isProcessing = false →
        (∀ it : WorkItem, it ∈ (clearCompleted s).items ↔
          (it ∈ s.items ∧ it.status ≠ WorkflowStatus.COMPLETED
            ∧ it.status ≠ WorkflowStatus.ERROR))
        ∧ (clearCompleted s).items.filter
            (fun it => decide (it.status = WorkflowStatus.PENDING))
          = s.items.filter (fun it => decide (it.status = WorkflowStatus.PENDING))) := by
  constructor
  · intro h
    constructor
    · unfold clearCompleted; rw [if_pos h]
    · unfold resetAll; rw [if_pos h]
  · intro h
    have hcc : (clearCompleted s).items = s.items.filter fun it =>
        decide (it.status ≠ WorkflowStatus.COMPLETED ∧ it.status ≠ WorkflowStatus.ERROR) := by
      unfold clearCompleted
      rw [if_neg (by simp [h])]
      rfl
    constructor
    · intro it
      rw [hcc]
      simp [List.mem_filter]
    · rw [hcc, List.filter_filter]
      congr 1
      funext it
      cases it.status <;> rfl

/-- Witness for the amended C7 at a concrete input: while running, both bulk
commands leave the state untouched. -/
theorem clear_finished_guard_witness :
    clearCompleted { items := [], logs := [], isProcessing := true }
      = { items := [], logs := [], isProcessing := true }
    ∧ resetAll { items := [], logs := [], isProcessing := true }
      = { items := [], logs := [], isProcessing := true } :=
  (clear_finished_guard { items := [], logs := [], isProcessing := true }).1 rfl

/-! ### Engine helper lemmas -/

/-- The composed effect of one driver-loop iteration on the item being
processed (and on any other item sharing its id): the sequential field
updates of the success path, the generation-failure path or the
analysis-failure path of `processItem`, folded into one record update. -/
def procResult (stages : Stages) (cur : WorkItem) (it : WorkItem) : WorkItem :=
  match stages.analyze cur.id with
  | Except.error m =>
      { it with status := WorkflowStatus.ERROR, originalPrompt := some "",
                error := some (displayedErrMsg m) }
  | Except.ok desc =>
      match stages.generate cur.id with
      | Except.ok img =>
          { it with status := WorkflowStatus.COMPLETED, originalPrompt := some desc,
                    generatedImageUrl := some img }
      | Except.error m =>
          { it with status := WorkflowStatus.ERROR, originalPrompt := some desc,
                    error := some (displayedErrMsg m) }

theorem procResult_id (stages : Stages) (cur it : WorkItem) :
    (procResult stages cur it).id = it.id := by
  unfold procResult
  cases stages.analyze cur.id with
  | error m => rfl
  | ok d => cases stages.generate cur.id <;> rfl

theorem procResult_terminal (stages : Stages) (cur it : WorkItem) :
    (procResult stages cur it).status = WorkflowStatus.COMPLETED ∨
    (procResult stages cur it).status = WorkflowStatus.ERROR := by
  unfold procResult
  cases stages.analyze cur.id with
  | error m => exact Or.inr rfl
  | ok d =>
      cases stages.generate cur.id with
      | ok img => exact Or.inl rfl
      | error m => exact Or.inr rfl

theorem processItem_items (stages : Stages) (cur : WorkItem) (s : EngineState) :
    (processItem stages cur s).items =
      s.items.map fun it => if it.id = cur.id then procResult stages cur it else it := by
  unfold processItem
  cases ha : stages.analyze cur.id with
  | error m =>
      simp only [addLog, updateItemWith, List.map_map]
      congr 1
      funext it
      by_cases h : it.id = cur.id <;> simp [procResult, ha, h, Function.comp]
  | ok desc =>
      cases hg : stages.generate cur.id with
      | ok img =>
          simp only [addLog, updateItemWith, List.map_map]
          congr 1
          funext it
          by_cases h : it.id = cur.id <;> simp [procResult, ha, hg, h, Function.comp]
      | error m =>
          simp only [addLog, updateItemWith, List.map_map]
          congr 1
          funext it
          by_cases h : it.id = cur.id <;> simp [procResult, ha, hg, h, Function.comp]

theorem runLoop_idle (stages : Stages) (stop : Nat → Bool) (fuel k : Nat)
    (s : EngineState) (h : s.isProcessing = false) :
    runLoop stages stop fuel k s = s := by
  cases fuel with
  | zero => rfl
  | succ n =>
      unfold runLoop
      cases findPending s.items with
      | none => rfl
      | some cur => simp [h]

/-! ### C2: cooperative cancellation at item boundaries -/

/-- C2: for every queue state, if stop is requested while the current item is
in flight (the flag is only read at the loop head), the loop still drives
that item — the first `Pending` one — to `Completed` or `Error` before
exiting, and every item with a different id (in particular every later
`Pending` item) is exactly as it was when stop was requested. -/
theorem stop_at_item_boundary (stages : Stages) (stop : Nat → Bool) (fuel k : Nat)
    (s : EngineState) (cur : WorkItem)
    (hrun : s.isProcessing = true)
    (hfind : findPending s.items = some cur)
    (hstop : stop k = true) :
    ((runLoop stages stop (fuel + 1) k s).items.length = s.items.length)
    ∧ (∃ it ∈ (runLoop stages stop (fuel + 1) k s).items,
        it.id = cur.id ∧
          (it.status = WorkflowStatus.COMPLETED ∨ it.status = WorkflowStatus.ERROR))
    ∧ (∀ it ∈ (runLoop stages stop (fuel + 1) k s).items,
        it.id = cur.id →
          (it.status = WorkflowStatus.COMPLETED ∨ it.status = WorkflowStatus.ERROR))
    ∧ (∀ (i : Nat) (hi : i < s.items.length)
        (hi2 : i < (runLoop stages stop (fuel + 1) k s).items.length),
        (s.items.get ⟨i, hi⟩).id ≠ cur.id →
          (runLoop stages stop (fuel + 1) k s).items.get ⟨i, hi2⟩ = s.items.get ⟨i, hi⟩) := by
  have key : runLoop stages stop (fuel + 1) k s = stopProcessing (processItem stages cur s) := by
    unfold runLoop
    simp only [hfind, hrun, if_true, hstop]
    exact runLoop_idle _ _ _ _ _ rfl
  have hitems : (runLoop stages stop (fuel + 1) k s).items =
      s.items.map fun it => if it.id = cur.id then procResult stages cur it else it := by
    rw [key]
    show (processItem stages cur s).items = _
    exact processItem_items stages cur s
  refine ⟨?_, ?_, ?_, ?_⟩
  · rw [hitems, List.length_map]
  · refine ⟨procResult stages cur cur, ?_, procResult_id stages cur cur,
      procResult_terminal stages cur cur⟩
    rw [hitems]
    have hmem : cur ∈ s.items := List.mem_of_find?_eq_some hfind
    have := List.mem_map_of_mem
      (fun it => if it.id = cur.id then procResult stages cur it else it) hmem
    simpa using this
  · intro it hit hid
    rw [hitems] at hit
    obtain ⟨x, hx, hxe⟩ := List.mem_map.mp hit
    by_cases h : x.id = cur.id
    · rw [if_pos h] at hxe
      rw [← hxe]
      exact procResult_terminal stages cur x
    · rw [if_neg h] at hxe
      rw [← hxe] at hid
      exact absurd hid h
  · intro i hi hi2 hne
    simp only [List.get_eq_getElem]
    rw [List.getElem_of_eq hitems hi2]
    simp only [List.getElem_map]
    rw [if_neg (by simpa [List.get_eq_getElem] using hne)]

/-- Witness for C2 at a concrete input: stop requested during the first of
two pending items; after the loop the first is `Completed`, the second is
still `Pending`. -/
theorem stop_at_item_boundary_witness :
    ((runLoop
      { analyze := fun _ => Except.ok "d", generate := fun _ => Except.ok "g",
        ratioLabel := "16:9" }
      (fun k => decide (k = 0)) 3 0
      { items := [mkWorkItem ⟨"1", ⟨"a.png"⟩, "u1"⟩, mkWorkItem ⟨"2", ⟨"b.png"⟩, "u2"⟩],
        logs := [], isProcessing := true }).items.length = 2)
    ∧ (∀ it ∈ (runLoop
        { analyze := fun _ => Except.ok "d", generate := fun _ => Except.ok "g",
          ratioLabel := "16:9" }
        (fun k => decide (k = 0)) 3 0
        { items := [mkWorkItem ⟨"1", ⟨"a.png"⟩, "u1"⟩, mkWorkItem ⟨"2", ⟨"b.png"⟩, "u2"⟩],
          logs := [], isProcessing := true }).items,
        it.id = "1" →
          (it.status = WorkflowStatus.COMPLETED ∨ it.status = WorkflowStatus.ERROR)) := by
  have h := stop_at_item_boundary
    { analyze := fun _ => Except.ok "d", generate := fun _ => Except.ok "g",
      ratioLabel := "16:9" }
    (fun k => decide (k = 0)) 2 0
    { items := [mkWorkItem ⟨"1", ⟨"a.png"⟩, "u1"⟩, mkWorkItem ⟨"2", ⟨"b.png"⟩, "u2"⟩],
      logs := [], isProcessing := true }
    (mkWorkItem ⟨"1", ⟨"a.png"⟩, "u1"⟩) rfl rfl rfl
  exact ⟨h.1, h.2.2.1⟩

/-! ### C1: failure isolation across a three-item batch -/

/-- C1: a full run over three `Pending` items whose analysis stage fails for
item 2 only completes items 1 and 3, marks item 2 `Error` with its message
set, and appends exactly one error-severity log record, which names item 2
by its file name — the failure never stops the rest of the batch. -/
theorem failure_isolation_three_items
    (a b c : NewFileInput) (stages : Stages) (d1 m d3 g1 g3 : String)
    (hab : a.id ≠ b.id) (hac : a.id ≠ c.id) (hbc : b.id ≠ c.id)
    (ha : stages.analyze a.id = Except.ok d1)
    (hb : stages.analyze b.id = Except.error m)
    (hc : stages.analyze c.id = Except.ok d3)
    (hga : stages.generate a.id = Except.ok g1)
    (hgc : stages.generate c.id = Except.ok g3) :
    ((processQueue stages (fun _ => false)
        { items := [mkWorkItem a, mkWorkItem b, mkWorkItem c],
          logs := [], isProcessing := false }).items.map
        (fun it => (it.status, it.error))
      = [(WorkflowStatus.COMPLETED, none),
         (WorkflowStatus.ERROR, some (displayedErrMsg m)),
         (WorkflowStatus.COMPLETED, none)])
    ∧ ((processQueue stages (fun _ => false)
        { items := [mkWorkItem a, mkWorkItem b, mkWorkItem c],
          logs := [], isProcessing := false }).logs.filter
        (fun l => decide (l.type = LogType.error))
      = [⟨LogType.error, "Failed processing " ++ b.file.name ++ ": " ++ displayedErrMsg m⟩]) := by
  have hba : b.id ≠ a.id := Ne.symm hab
  have hca : c.id ≠ a.id := Ne.symm hac
  have hcb : c.id ≠ b.id := Ne.symm hbc
  constructor <;>
    simp [processQueue, runLoop, processItem, findPending, updateItemWith, addLog,
      mkWorkItem, List.find?, ha, hb, hc, hga, hgc, hab, hac, hbc, hba, hca, hcb]

/-- Witness for C1 at a concrete input: three items, analysis fails for the
second only. -/
theorem failure_isolation_three_items_witness :
    ((processQueue
        { analyze := fun id => if id = "2" then Except.error "boom" else Except.ok "desc",
          generate := fun _ => Except.ok "img", ratioLabel := "16:9" }
        (fun _ => false)
        { items := [mkWorkItem ⟨"1", ⟨"a.png"⟩, "u1"⟩, mkWorkItem ⟨"2", ⟨"b.png"⟩, "u2"⟩,
                    mkWorkItem ⟨"3", ⟨"c.png"⟩, "u3"⟩],
          logs := [], isProcessing := false }).items.map (fun it => (it.status, it.error))
      = [(WorkflowStatus.COMPLETED, none),
         (WorkflowStatus.ERROR, some (displayedErrMsg "boom")),
         (WorkflowStatus.COMPLETED, none)])
    ∧ ((processQueue
        { analyze := fun id => if id = "2" then Except.error "boom" else Except.ok "desc",
          generate := fun _ => Except.ok "img", ratioLabel := "16:9" }
        (fun _ => false)
        { items := [mkWorkItem ⟨"1", ⟨"a.png"⟩, "u1"⟩, mkWorkItem ⟨"2", ⟨"b.png"⟩, "u2"⟩,
                    mkWorkItem ⟨"3", ⟨"c.png"⟩, "u3"⟩],
          logs := [], isProcessing := false }).logs.filter
        (fun l => decide (l.type = LogType.error))
      = [⟨LogType.error, "Failed processing " ++ "b.png" ++ ": " ++ displayedErrMsg "boom"⟩]) :=
  failure_isolation_three_items ⟨"1", ⟨"a.png"⟩, "u1"⟩ ⟨"2", ⟨"b.png"⟩, "u2"⟩
    ⟨"3", ⟨"c.png"⟩, "u3"⟩
    { analyze := fun id => if id = "2" then Except.error "boom" else Except.ok "desc",
      generate := fun _ => Except.ok "img", ratioLabel := "16:9" }
    "desc" "boom" "desc" "img" "img"
    (by decide) (by decide) (by decide) rfl rfl rfl rfl rfl

/-! ### C8: result/error exclusivity invariant -/

/-- Consistency of one work item as the spec states it: a result image is
present only on a `Completed` item and an error message only on an `Error`
item (hence never both). -/
def ItemConsistent (it : WorkItem) : Prop :=
  (it.generatedImageUrl ≠ none → it.status = WorkflowStatus.COMPLETED)
  ∧ (it.error ≠ none → it.status = WorkflowStatus.ERROR)

/-- Store-level invariant carried through the reachability induction: ids are
pairwise distinct (`generateId` assigns fresh ids, and no command ever
rewrites one) and every item is consistent. -/
def StoreConsistent (s : EngineState) : Prop :=
  ((s.items.map WorkItem.id).Nodup) ∧ ∀ it ∈ s.items, ItemConsistent it

/-- One atomic state commit of the application: a user command on the store,
one of the engine's start/stop/finish flag commits, or the processing of one
found `Pending` item by the driver loop (which only runs while the flag is
up).  `addFiles` records that `generateId` hands out ids that are fresh for
the store and pairwise distinct within the call. -/
inductive Step : EngineState → EngineState → Prop
  | addFiles (s : EngineState) (files : List NewFileInput)
      (hfresh : ∀ nf ∈ files, ∀ it ∈ s.items, it.id ≠ nf.id)
      (hnodup : (files.map NewFileInput.id).Nodup) :
      Step s (handleFilesSelected files s)
  | retry (s : EngineState) (id : String) : Step s (handleRetryItem id s)
  | remove (s : EngineState) (id : String) : Step s (handleRemoveItem id s)
  | clear (s : EngineState) : Step s (clearCompleted s)
  | reset (s : EngineState) : Step s (resetAll s)
  | stop (s : EngineState) : Step s (stopProcessing s)
  | start (s : EngineState) (hidle : s.isProcessing = false) :
      Step s (addLog LogType.info "Queue processing started." { s with isProcessing := true })
  | finish (s : EngineState) :
      Step s (addLog LogType.info "Queue processing finished or stopped."
        { s with isProcessing := false })
  | process (s : EngineState) (stages : Stages) (cur : WorkItem)
      (hrun : s.isProcessing = true)
      (hfind : findPending s.items = some cur) :
      Step s (processItem stages cur s)

/-- States reachable from the initial empty application state. -/
inductive Reachable : EngineState → Prop
  | init : Reachable { items := [], logs := [], isProcessing := false }
  | step {s t : EngineState} : Reachable s → Step s t → Reachable t

theorem updateItemWith_map_id (f : WorkItem → WorkItem)
    (hf : ∀ it, (f it).id = it.id) (id : String) (items : List WorkItem) :
    (updateItemWith f id items).map WorkItem.id = items.map WorkItem.id := by
  unfold updateItemWith
  rw [List.map_map]
  congr 1
  funext it
  by_cases h : it.id = id <;> simp [h, hf]

theorem nodup_ids_of_filter (p : WorkItem → Bool) (items : List WorkItem)
    (h : (items.map WorkItem.id).Nodup) :
    ((items.filter p).map WorkItem.id).Nodup :=
  ((List.filter_sublist items).map WorkItem.id).nodup h

theorem mem_eq_of_nodup_ids (items : List WorkItem)
    (h : (items.map WorkItem.id).Nodup) (x y : WorkItem)
    (hx : x ∈ items) (hy : y ∈ items) (hid : x.id = y.id) : x = y :=
  List.inj_on_of_nodup_map h hx hy hid

theorem findPending_mem_pending (items : List WorkItem) (cur : WorkItem)
    (h : findPending items = some cur) :
    cur ∈ items ∧ cur.status = WorkflowStatus.PENDING := by
  refine ⟨List.mem_of_find?_eq_some h, ?_⟩
  have := List.find?_some h
  simpa using this

theorem mem_updateItemWith (f : WorkItem → WorkItem) (id : String)
    (items : List WorkItem) (it : WorkItem) :
    it ∈ updateItemWith f id items ↔
      ∃ x ∈ items, (if x.id = id then f x else x) = it := by
  simp [updateItemWith]

theorem storeConsistent_step {s t : EngineState}
    (hs : StoreConsistent s) (hst : Step s t) : StoreConsistent t := by
  obtain ⟨hnodup, hcons⟩ := hs
  cases hst with
  | addFiles files hfresh hnodup2 =>
      constructor
      · show ((s.items ++ files.map mkWorkItem).map WorkItem.id).Nodup
        rw [List.map_append, List.nodup_append]
        refine ⟨hnodup, ?_, ?_⟩
        · rw [List.map_map]
          have hcomp : (WorkItem.id ∘ mkWorkItem) = NewFileInput.id := by
            funext nf; rfl
          rw [hcomp]
          exact hnodup2
        · intro x hx1 hx2
          obtain ⟨it, hit, hide⟩ := List.mem_map.mp hx1
          obtain ⟨w, hw, hwe⟩ := List.mem_map.mp hx2
          obtain ⟨nf, hnf, hnfe⟩ := List.mem_map.mp hw
          have hnfid : nf.id = x := by rw [← hwe, ← hnfe]; rfl
          exact hfresh nf hnf it hit (hide.trans hnfid.symm)
      · intro it hit
        rcases List.mem_append.mp hit with h1 | h1
        · exact hcons it h1
        · obtain ⟨nf, _, hnfe⟩ := List.mem_map.mp h1
          subst hnfe
          exact ⟨fun h2 => absurd rfl h2, fun h2 => absurd rfl h2⟩
  | retry id =>
      constructor
      · show ((updateItemWith retryReset id s.items).map WorkItem.id).Nodup
        rw [updateItemWith_map_id retryReset (fun it => rfl) id s.items]
        exact hnodup
      · intro it hit
        obtain ⟨x, hx, hxe⟩ := (mem_updateItemWith retryReset id s.items it).mp hit
        by_cases h : x.id = id
        · rw [if_pos h] at hxe
          subst hxe
          exact ⟨fun h2 => absurd rfl h2, fun h2 => absurd rfl h2⟩
        · rw [if_neg h] at hxe
          subst hxe
          exact hcons x hx
  | remove id =>
      exact ⟨nodup_ids_of_filter _ _ hnodup,
        fun it hit => hcons it (List.mem_of_mem_filter hit)⟩
  | clear =>
      by_cases h : s.isProcessing
      · have he : clearCompleted s = s := by unfold clearCompleted; rw [if_pos h]
        rw [he]
        exact ⟨hnodup, hcons⟩
      · have he : (clearCompleted s).items = s.items.filter fun it =>
            decide (it.status ≠ WorkflowStatus.COMPLETED ∧
              it.status ≠ WorkflowStatus.ERROR) := by
          unfold clearCompleted; rw [if_neg h]; rfl
        constructor
        · rw [he]
          exact nodup_ids_of_filter _ _ hnodup
        · rw [he]
          exact fun it hit => hcons it (List.mem_of_mem_filter hit)
  | reset =>
      by_cases h : s.isProcessing
      · have he : resetAll s = s := by unfold resetAll; rw [if_pos h]
        rw [he]
        exact ⟨hnodup, hcons⟩
      · have he : (resetAll s).items = [] := by
          unfold resetAll; rw [if_neg h]; rfl
        constructor
        · rw [he]; simp
        · rw [he]; simp
  | stop => exact ⟨hnodup, hcons⟩
  | start hidle => exact ⟨hnodup, hcons⟩
  | finish => exact ⟨hnodup, hcons⟩
  | process stages cur hrun hfind =>
      obtain ⟨hmem, hpend⟩ := findPending_mem_pending s.items cur hfind
      constructor
      · rw [processItem_items]
        show ((updateItemWith (procResult stages cur) cur.id s.items).map WorkItem.id).Nodup
        rw [updateItemWith_map_id (procResult stages cur) (procResult_id stages cur)
          cur.id s.items]
        exact hnodup
      · intro it hit
        rw [processItem_items] at hit
        obtain ⟨x, hx, hxe⟩ := List.mem_map.mp hit
        by_cases h : x.id = cur.id
        · rw [if_pos h] at hxe
          have hxc : x = cur := mem_eq_of_nodup_ids s.items hnodup x cur hx hmem h
          have hgen : x.generatedImageUrl = none := by
            by_contra h2
            have h3 := (hcons x hx).1 h2
            rw [hxc, hpend] at h3
            · exact WorkflowStatus.noConfusion h3
          have herr : x.error = none := by
            by_contra h2
            have h3 := (hcons x hx).2 h2
            rw [hxc, hpend] at h3
            · exact WorkflowStatus.noConfusion h3
          subst hxe
          unfold procResult
          cases stages.analyze cur.id with
          | error msg =>
              exact ⟨fun h2 => absurd hgen h2, fun _ => rfl⟩
          | ok desc =>
              cases stages.generate cur.id with
              | ok img => exact ⟨fun _ => rfl, fun h2 => absurd herr h2⟩
              | error msg => exact ⟨fun h2 => absurd hgen h2, fun _ => rfl⟩
        · rw [if_neg h] at hxe
          subst hxe
          exact hcons x hx

theorem reachable_storeConsistent (s : EngineState)
    (h : Reachable s) : StoreConsistent s := by
  induction h with
  | init => exact ⟨by simp, by simp⟩
  | step _ hst ih => exact storeConsistent_step ih hst

/-- C8: in every reachable state, each work item satisfies the exclusivity
invariant — a result image is present only when the item is `Completed`, an
error message only when it is `Error`, and never both — and this is
preserved by every engine transition and every user command. -/
theorem result_error_exclusivity (s : EngineState) (h : Reachable s) :
    ∀ it ∈ s.items,
      (it.generatedImageUrl ≠ none → it.status = WorkflowStatus.COMPLETED)
      ∧ (it.error ≠ none → it.status = WorkflowStatus.ERROR)
      ∧ ¬(it.generatedImageUrl ≠ none ∧ it.error ≠ none) := by
  intro it hit
  obtain ⟨h1, h2⟩ := (reachable_storeConsistent s h).2 it hit
  refine ⟨h1, h2, fun ⟨hg, he⟩ => ?_⟩
  have := (h1 hg).symm.trans (h2 he)
  exact WorkflowStatus.noConfusion this

/-- Witness for C8 at a concrete reachable state: one freshly added item. -/
theorem result_error_exclusivity_witness :
    ((mkWorkItem ⟨"1", ⟨"a.png"⟩, "u"⟩).generatedImageUrl ≠ none →
      (mkWorkItem ⟨"1", ⟨"a.png"⟩, "u"⟩).status = WorkflowStatus.COMPLETED)
    ∧ ((mkWorkItem ⟨"1", ⟨"a.png"⟩, "u"⟩).error ≠ none →
      (mkWorkItem ⟨"1", ⟨"a.png"⟩, "u"⟩).status = WorkflowStatus.ERROR)
    ∧ ¬((mkWorkItem ⟨"1", ⟨"a.png"⟩, "u"⟩).generatedImageUrl ≠ none
        ∧ (mkWorkItem ⟨"1", ⟨"a.png"⟩, "u"⟩).error ≠ none) := by
  have hr : Reachable (handleFilesSelected [⟨"1", ⟨"a.png"⟩, "u"⟩]
      { items := [], logs := [], isProcessing := false }) :=
    Reachable.step Reachable.init
      (Step.addFiles _ [⟨"1", ⟨"a.png"⟩, "u"⟩] (by simp) (by simp))
  exact result_error_exclusivity _ hr (mkWorkItem ⟨"1", ⟨"a.png"⟩, "u"⟩)
    (by simp [handleFilesSelected, addLog])

/-! ### C6: FIFO store order -/

/-- A sequence of `addFiles` calls applied in order. -/
def addBatches (batches : List (List NewFileInput)) (s : EngineState) : EngineState :=
  batches.foldl (fun acc fs => handleFilesSelected fs acc) s

theorem addBatches_items (batches : List (List NewFileInput)) (s : EngineState) :
    (addBatches batches s).items =
      s.items ++ (batches.map (fun fs => fs.map mkWorkItem)).flatten := by
  induction batches generalizing s with
  | nil => simp [addBatches]
  | cons fs rest ih =>
      show (addBatches rest (handleFilesSelected fs s)).items = _
      rw [ih]
      simp [handleFilesSelected, addLog, List.append_assoc]

/-- C6: the store is FIFO — after any sequence of `addFiles` calls the
iteration order is call order and, within one call, file order; any update
rewrites items in place, never re-appending, so the id sequence is unchanged;
and the engine scan returns the first `Pending` item in this insertion
order. -/
theorem fifo_store_order (batches : List (List NewFileInput)) (s : EngineState)
    (f : WorkItem → WorkItem) (hf : ∀ it, (f it).id = it.id) (id : String)
    (items : List WorkItem) (i : Nat) (hi : i < items.length)
    (hfirst : ∀ (j : Nat) (hj : j < items.length), j < i →
      (items.get ⟨j, hj⟩).status ≠ WorkflowStatus.PENDING)
    (hpend : (items.get ⟨i, hi⟩).status = WorkflowStatus.PENDING) :
    ((addBatches batches s).items =
      s.items ++ (batches.map (fun fs => fs.map mkWorkItem)).flatten)
    ∧ ((updateItemWith f id items).map WorkItem.id = items.map WorkItem.id)
    ∧ findPending items = some (items.get ⟨i, hi⟩) := by
  refine ⟨addBatches_items batches s, updateItemWith_map_id f hf id items, ?_⟩
  clear hf
  induction items generalizing i with
  | nil => exact absurd hi (by simp)
  | cons a rest ih =>
      cases i with
      | zero =>
          unfold findPending
          rw [List.find?_cons_of_pos]
          · rfl
          · simpa using hpend
      | succ n =>
          have hhead : a.status ≠ WorkflowStatus.PENDING := by
            have := hfirst 0 (by simp) (Nat.succ_pos n)
            simpa using this
          unfold findPending
          rw [List.find?_cons_of_neg _ (by simpa using hhead)]
          have hn : n < rest.length := by
            simpa [Nat.succ_lt_succ_iff] using hi
          have := ih n hn (fun j hj hlt => by
            have := hfirst (j + 1) (by simpa [Nat.succ_lt_succ_iff] using hj)
              (Nat.succ_lt_succ hlt)
            simpa using this) (by simpa using hpend)
          simpa [findPending] using this

/-- Witness for C6 at a concrete input: two batches, one in-place update, and
the scan finding the second item (the first `Pending` one). -/
theorem fifo_store_order_witness :
    ((addBatches [[⟨"1", ⟨"a.png"⟩, "u1"⟩], [⟨"2", ⟨"b.png"⟩, "u2"⟩]]
        { items := [], logs := [], isProcessing := false }).items =
      [] ++ ([[⟨"1", ⟨"a.png"⟩, "u1"⟩], [⟨"2", ⟨"b.png"⟩, "u2"⟩]].map
        (fun fs => fs.map mkWorkItem)).flatten)
    ∧ ((updateItemWith retryReset "9"
        [{ id := "7", file := ⟨"x.png"⟩, previewUrl := "u",
           status := WorkflowStatus.COMPLETED },
         { id := "9", file := ⟨"y.png"⟩, previewUrl := "u",
           status := WorkflowStatus.PENDING }]).map WorkItem.id =
      [{ id := "7", file := ⟨"x.png"⟩, previewUrl := "u",
         status := WorkflowStatus.COMPLETED },
       { id := "9", file := ⟨"y.png"⟩, previewUrl := "u",
         status := WorkflowStatus.PENDING }].map WorkItem.id)
    ∧ findPending
        [{ id := "7", file := ⟨"x.png"⟩, previewUrl := "u",
           status := WorkflowStatus.COMPLETED },
         { id := "9", file := ⟨"y.png"⟩, previewUrl := "u",
           status := WorkflowStatus.PENDING }]
      = some ([{ id := "7", file := ⟨"x.png"⟩, previewUrl := "u",
                 status := WorkflowStatus.COMPLETED },
               { id := "9", file := ⟨"y.png"⟩, previewUrl := "u",
                 status := WorkflowStatus.PENDING }].get ⟨1, by decide⟩) :=
  fifo_store_order [[⟨"1", ⟨"a.png"⟩, "u1"⟩], [⟨"2", ⟨"b.png"⟩, "u2"⟩]]
    { items := [], logs := [], isProcessing := false }
    retryReset (fun it => rfl) "9"
    [{ id := "7", file := ⟨"x.png"⟩, previewUrl := "u",
       status := WorkflowStatus.COMPLETED },
     { id := "9", file := ⟨"y.png"⟩, previewUrl := "u",
       status := WorkflowStatus.PENDING }]
    1 (by decide) (fun j hj hlt => by
      have hj0 : j = 0 := Nat.lt_one_iff.mp hlt
      subst hj0
      simp)
    (by decide)

end PromptFusion
